import Mathlib

set_option maxRecDepth 100000

/-!
Shallow embedding of the blog service in `src/main.py`: the seed generator
(`seed_posts`), the listing query engine (`list_posts`) and single-post
retrieval (`get_post`).  The MongoDB collection is modelled as a `List Post`;
the unique index on `slug` created by `ensure_indexes` makes an insert of a
duplicate slug fail.  Machine timestamps are modelled as natural numbers.
-/

/-- A blog post document, after the fields written by `seed_posts`
(lines 130-140 of `src/main.py`).  Timestamps are modelled as `Nat`. -/
structure Post where
  title : String
  slug : String
  excerpt : String
  content : String
  author : String
  tags : List String
  cover_image : Option String
  created_at : Nat
  updated_at : Nat
  deriving Repr, DecidableEq

/-- The fixed author pool (`authors` in `seed_posts`, lines 94-97). -/
def authors : List String :=
  ["Alex Carter", "Jordan Lee", "Taylor Morgan", "Riley Brooks", "Casey Kim",
   "Avery Patel", "Jamie Rivera", "Morgan Blake", "Quinn Parker", "Drew Nguyen"]

/-- The fixed tag pool (`tag_pool` in `seed_posts`, lines 98-100). -/
def tag_pool : List String :=
  ["tech", "design", "business", "ai", "dev", "life", "product", "growth",
   "marketing", "tutorial"]

/-- The fixed paragraph pool (`lorem_paras` in `seed_posts`, lines 102-108). -/
def lorem_paras : List String :=
  ["Lorem ipsum dolor sit amet, consectetur adipiscing elit. Vivamus at mi sit amet odio ultrices pulvinar.",
   "Curabitur at sapien sollicitudin, aliquam neque et, lacinia augue. Mauris nec massa quis justo cursus.",
   "Suspendisse potenti. Ut a ligula sed arcu vestibulum dapibus vitae non mi. Donec vel sagittis risus.",
   "Integer vitae dui at sapien volutpat ullamcorper. Praesent feugiat, enim vitae suscipit dapibus, urna massa.",
   "Sed sit amet tortor vitae justo scelerisque rhoncus. Cras at semper elit. Proin pretium, sapien ut bibendum."]

/-- Python `str(i).zfill(4)` for a natural number: left-pad the decimal
representation with zeros up to width 4 (line 113 of `src/main.py`). -/
def zfill4 (i : Nat) : String :=
  String.mk (List.replicate (4 - (Nat.repr i).length) '0') ++ Nat.repr i

/-- Python `"\n\n".join(parts)` (line 118 of `src/main.py`). -/
def joinDD : List String → String
  | [] => ""
  | [s] => s
  | s :: rest => s ++ "\n\n" ++ joinDD rest

/-- One generated document of the seeding loop body (`seed_posts`,
lines 112-140 of `src/main.py`), for loop index `i` and batch timestamp
`now`.  Python builds `tags` as `list({...})`: a deduplicated collection
whose iteration order is unspecified; the model fixes first-occurrence
order, which is irrelevant to every set-level property. -/
def genPost (i : Nat) (now : Nat) : Post :=
  let idx := zfill4 i
  let title := "Sample Blog Post " ++ idx
  { title := title
    slug := "sample-blog-post-" ++ idx
    excerpt := "This is a short summary for post " ++ idx ++ ". " ++
      lorem_paras.getD (i % lorem_paras.length) ""
    content := joinDD
      ["# " ++ title,
       lorem_paras.getD ((i + 0) % lorem_paras.length) "",
       lorem_paras.getD ((i + 1) % lorem_paras.length) "",
       lorem_paras.getD ((i + 2) % lorem_paras.length) "",
       "## Key Takeaways",
       "- Insight one about the topic",
       "- Practical tip for readers",
       "- Closing thought to inspire action"]
    author := authors.getD (i % authors.length) ""
    tags := ([tag_pool.getD (i % tag_pool.length) "",
              tag_pool.getD ((i * 3) % tag_pool.length) "",
              tag_pool.getD ((i * 7) % tag_pool.length) ""]).dedup
    cover_image := none
    created_at := now
    updated_at := now }

/-- Response of the seed endpoint (`seed_posts`): either the early-return
branch `\x7b"status": "ok", "message": f"Database already has \x7bexisting\x7d posts"\x7d`
(line 92), carrying the existing count, or the final
`\x7b"status": "ok", "inserted": ..., "total": ...\x7d` (line 152). -/
inductive SeedResp where
  | already (existing : Nat)
  | seeded (inserted : Nat) (total : Nat)
  deriving Repr, DecidableEq

/-- `collection.insert_one(doc)` under the unique index on `slug`
(`ensure_indexes`, line 74): raises a duplicate-key error, modelled as
`none`, when a document with the same slug is already present; otherwise
appends the document. -/
def insertOne (store : List Post) (doc : Post) : Option (List Post) :=
  if store.any (fun p => p.slug == doc.slug) then none
  else some (store ++ [doc])

/-- The seeding insert loop (lines 143-151 of `src/main.py`), generalised
over the per-record insert `attempt`, which may fail for any reason: a
failed attempt is swallowed (`except Exception: pass`) and contributes
nothing to the `inserted` counter; the loop always continues with the next
document.  Returns the final store and the counter. -/
def insertEach (attempt : List Post → Post → Option (List Post)) :
    List Post → List Post → List Post × Nat
  | store, [] => (store, 0)
  | store, doc :: docs =>
    match attempt store doc with
    | some store2 =>
      let r := insertEach attempt store2 docs
      (r.1, r.2 + 1)
    | none => insertEach attempt store docs

/-- The generated batch `docs` of `seed_posts` for `range(1, total + 1)`
(lines 110-140 of `src/main.py`). -/
def seedDocs (now : Nat) (total : Nat) : List Post :=
  (List.range total).map (fun k => genPost (k + 1) now)

/-- `seed_posts(total)` (lines 85-152 of `src/main.py`):
`estimated_document_count` is modelled as the exact store size; when the
store already holds at least `total` posts the early-return message branch
reports the existing count, otherwise every generated document is attempted
individually with `insert_one`. -/
def seedPosts (store : List Post) (now : Nat) (total : Nat) :
    List Post × SeedResp :=
  if total ≤ store.length then (store, SeedResp.already store.length)
  else
    let r := insertEach insertOne store (seedDocs now total)
    (r.1, SeedResp.seeded r.2 r.1.length)

/-! ### The listing query engine (`list_posts`, lines 156-200) -/

/-- One pattern token of a MongoDB `$regex` pattern with the `"i"` option
matched against one subject character: `.` matches any character, any other
character matches itself up to ASCII case. -/
def tokenMatch (p c : Char) : Bool :=
  p == '.' || p.toLower == c.toLower

/-- The pattern matches a prefix of the subject. -/
def matchHere : List Char → List Char → Bool
  | [], _ => true
  | _ :: _, [] => false
  | p :: ps, c :: cs => tokenMatch p c && matchHere ps cs

/-- Unanchored search: the pattern matches somewhere in the subject. -/
def regexFind (ps : List Char) : List Char → Bool
  | [] => matchHere ps []
  | c :: cs => matchHere ps (c :: cs) || regexFind ps cs

/-- MongoDB `\x7b"$regex": pat, "$options": "i"\x7d` applied to a string field:
unanchored case-insensitive regular-expression search.  The model is exact
for patterns made of literal characters and the `.` wildcard (the regex
fragment whose behaviour the theorems below use); the other PCRE
metacharacters are treated as literal characters here, so every general
theorem about an arbitrary query hypothesises their absence. -/
def regexMatch (pat subject : String) : Bool :=
  regexFind pat.data subject.data

/-- The `$or` block built by `list_posts` when `q` is truthy
(lines 170-175 of `src/main.py`): a case-insensitive regex match against
`title`, `excerpt`, `content`, or any element of the `tags` array. -/
def qMatch (q : String) (p : Post) : Bool :=
  regexMatch q p.title || regexMatch q p.excerpt || regexMatch q p.content ||
    p.tags.any (fun t => regexMatch q t)

/-- The whole filter document `filter_q` of `list_posts` (lines 168-177)
applied to a post: the `q` clause is added only when `q` is present and
non-empty (Python truthiness of `if q:`), the `tag` clause
`filter_q["tags"] = tag` is MongoDB equality on an array field, i.e.
exact membership, added only when `tag` is truthy; both clauses must hold. -/
def matchFilter (q tag : Option String) (p : Post) : Bool :=
  (match q with
   | none => true
   | some s => if s.isEmpty then true else qMatch s p) &&
  (match tag with
   | none => true
   | some t => if t.isEmpty then true else p.tags.contains t)

/-- A listing item: the projection `\x7b"content": 0\x7d` of `find` (line 183)
returns every stored field except `content`. -/
structure PostSummary where
  title : String
  slug : String
  excerpt : String
  author : String
  tags : List String
  cover_image : Option String
  created_at : Nat
  updated_at : Nat
  deriving Repr, DecidableEq

/-- Drop the `content` field of a post (the `\x7b"content": 0\x7d` projection). -/
def summarize (p : Post) : PostSummary :=
  { title := p.title, slug := p.slug, excerpt := p.excerpt,
    author := p.author, tags := p.tags, cover_image := p.cover_image,
    created_at := p.created_at, updated_at := p.updated_at }

/-- The ordering of `.sort("created_at", -1)` (line 184): newest first. -/
def newestFirst (a b : Post) : Prop :=
  b.created_at ≤ a.created_at

instance : DecidableRel newestFirst :=
  fun a b => Nat.decLe b.created_at a.created_at

instance : IsTotal Post newestFirst :=
  ⟨fun a b => Nat.le_total b.created_at a.created_at⟩

instance : IsTrans Post newestFirst :=
  ⟨fun _ _ _ hab hbc => le_trans hbc hab⟩

/-- `.sort("created_at", -1)` (line 184): newest first.  MongoDB leaves the
relative order of equal keys unspecified; the model uses a stable insertion
sort with the comparison `created_at` descending. -/
def sortByCreatedDesc (l : List Post) : List Post :=
  l.insertionSort newestFirst

/-- The response body of `list_posts` (lines 194-200 of `src/main.py`). -/
structure ListResponse where
  page : Nat
  limit : Nat
  total : Nat
  pages : Nat
  items : List PostSummary
  deriving Repr, DecidableEq

/-- `list_posts(page, limit, q, tag)` (lines 156-200 of `src/main.py`):
count the matches of `filter_q`, sort by `created_at` descending, skip
`(page - 1) * limit`, take `limit`, drop `content` from each item, and
report `pages = (total + limit - 1) // limit if limit else 1`. -/
def listPosts (store : List Post) (page limit : Nat) (q tag : Option String) :
    ListResponse :=
  let hits := store.filter (matchFilter q tag)
  let total := hits.length
  let window := ((sortByCreatedDesc hits).drop ((page - 1) * limit)).take limit
  { page := page
    limit := limit
    total := total
    pages := if limit = 0 then 1 else (total + limit - 1) / limit
    items := window.map summarize }

/-- Outcome of `get_post(slug)` (lines 204-214 of `src/main.py`): either the
full document (every field, `content` included), or the non-fatal
`HTTPException(status_code=404, detail="Post not found")` response raised
when `find_one` returns no document. -/
inductive GetPostResp where
  | ok (post : Post)
  | notFound
  deriving Repr, DecidableEq

/-- `get_post(slug)`: `find_one(\x7b"slug": slug\x7d)` is the first stored
document with that slug; no document yields the 404 response. -/
def getPost (store : List Post) (slug : String) : GetPostResp :=
  match store.find? (fun p => p.slug == slug) with
  | some p => GetPostResp.ok p
  | none => GetPostResp.notFound

/-! ### Spec-side definitions (for the refinement claims about search) -/

/-- The pattern list occurs as a contiguous sublist of the subject list. -/
def containsSub (p : List Char) : List Char → Bool
  | [] => p.isPrefixOf []
  | c :: cs => p.isPrefixOf (c :: cs) || containsSub p cs

/-- Spec wording: `q` "contains ... as a case-insensitive substring" —
the ASCII-lowered query occurs contiguously in the ASCII-lowered subject. -/
def ciSubstring (q s : String) : Bool :=
  containsSub (q.data.map Char.toLower) (s.data.map Char.toLower)

/-- Spec wording for the `q` filter: case-insensitive substring match
against `title`, `excerpt`, `content`, or any `tags` entry, any one
sufficient. -/
def specQMatch (q : String) (p : Post) : Bool :=
  ciSubstring q p.title || ciSubstring q p.excerpt || ciSubstring q p.content ||
    p.tags.any (fun t => ciSubstring q t)

/-! ### Decimal representation: `Nat.repr` is injective on `Nat` -/

/-- Value of a decimal digit string, most significant digit first. -/
def digitsVal : List Char → Nat
  | [] => 0
  | c :: cs => (c.toNat - 48) * 10 ^ cs.length + digitsVal cs

theorem toDigitsCore_append (fuel : Nat) :
    ∀ (n : Nat) (ds : List Char),
      Nat.toDigitsCore 10 fuel n ds = Nat.toDigitsCore 10 fuel n [] ++ ds := by
  induction fuel with
  | zero => intro n ds; simp [Nat.toDigitsCore]
  | succ f ih =>
    intro n ds
    simp only [Nat.toDigitsCore]
    by_cases h : n / 10 = 0
    · simp [h]
    · simp only [h, if_false]
      rw [ih (n / 10) (Nat.digitChar (n % 10) :: ds),
        ih (n / 10) [Nat.digitChar (n % 10)], List.append_assoc]
      rfl

/-- Reference decimal digit list of `n`, most significant digit first. -/
def decDigits (n : Nat) : List Char :=
  if _h : n < 10 then [Nat.digitChar n]
  else decDigits (n / 10) ++ [Nat.digitChar (n % 10)]
decreasing_by exact Nat.div_lt_self (by omega) (by omega)

theorem toDigitsCore_eq_decDigits (fuel : Nat) :
    ∀ n : Nat, n < fuel → Nat.toDigitsCore 10 fuel n [] = decDigits n := by
  induction fuel with
  | zero => omega
  | succ f ih =>
    intro n hn
    simp only [Nat.toDigitsCore]
    by_cases h : n / 10 = 0
    · have h10 : n < 10 := by omega
      rw [decDigits]
      simp [h, h10, Nat.mod_eq_of_lt h10]
    · have h10 : ¬ n < 10 := by omega
      have hf : n / 10 < f := by omega
      rw [if_neg h, toDigitsCore_append, ih (n / 10) hf]
      conv_rhs => rw [decDigits]
      simp [h10]

theorem toDigits_eq_decDigits (n : Nat) : Nat.toDigits 10 n = decDigits n :=
  toDigitsCore_eq_decDigits (n + 1) n (Nat.lt_succ_self n)

theorem digitsVal_append_digit (ds : List Char) (c : Char) :
    digitsVal (ds ++ [c]) = 10 * digitsVal ds + (c.toNat - 48) := by
  induction ds with
  | nil => simp [digitsVal]
  | cons d ds ih =>
    have hl : (ds ++ [c]).length = ds.length + 1 := by simp
    simp only [List.cons_append, digitsVal, List.append_eq, ih, hl, pow_succ]
    ring

theorem digitsVal_decDigits (n : Nat) : digitsVal (decDigits n) = n := by
  induction n using Nat.strong_induction_on with
  | _ n ih =>
    rw [decDigits]
    by_cases h : n < 10
    · simp only [h, dif_pos, digitsVal]
      interval_cases n <;> decide
    · have hd : n / 10 < n := Nat.div_lt_self (by omega) (by omega)
      simp only [h, dif_neg, not_false_iff, digitsVal_append_digit, ih (n / 10) hd]
      have h1 : n % 10 < 10 := Nat.mod_lt _ (by omega)
      have h2 : (Nat.digitChar (n % 10)).toNat - 48 = n % 10 := by
        set m := n % 10 with hm
        interval_cases m <;> decide
      omega

theorem decDigits_injective {m n : Nat} (h : decDigits m = decDigits n) : m = n := by
  have := congrArg digitsVal h
  rwa [digitsVal_decDigits, digitsVal_decDigits] at this

theorem repr_injective {m n : Nat} (h : Nat.repr m = Nat.repr n) : m = n := by
  apply decDigits_injective
  rw [← toDigits_eq_decDigits, ← toDigits_eq_decDigits]
  have := congrArg String.data h
  simpa [Nat.repr, List.asString] using this

theorem decDigits_ne_nil (n : Nat) : decDigits n ≠ [] := by
  rw [decDigits]
  by_cases h : n < 10 <;> simp [h]

theorem decDigits_head_ne_zero (n : Nat) (hn : 1 ≤ n) :
    (decDigits n).head? ≠ some '0' := by
  induction n using Nat.strong_induction_on with
  | _ n ih =>
    rw [decDigits]
    by_cases h : n < 10
    · simp only [h, dif_pos, List.head?_cons]
      interval_cases n <;> decide
    · have hd : n / 10 < n := Nat.div_lt_self (by omega) (by omega)
      have h1 : 1 ≤ n / 10 := by omega
      simp only [h, dif_neg, not_false_iff]
      rw [List.head?_append_of_ne_nil _ (decDigits_ne_nil (n / 10))]
      exact ih (n / 10) hd h1

theorem replicate_zero_append_inj :
    ∀ (a b : Nat) (xs ys : List Char),
      xs.head? ≠ some '0' → ys.head? ≠ some '0' →
      List.replicate a '0' ++ xs = List.replicate b '0' ++ ys → xs = ys := by
  intro a
  induction a with
  | zero =>
    intro b xs ys hx hy h
    cases b with
    | zero => simpa using h
    | succ b =>
      exfalso
      simp only [List.replicate, List.nil_append, List.cons_append] at h
      rw [h] at hx
      simp at hx
  | succ a ih =>
    intro b xs ys hx hy h
    cases b with
    | zero =>
      exfalso
      simp only [List.replicate, List.nil_append, List.cons_append] at h
      rw [← h] at hy
      simp at hy
    | succ b =>
      simp only [List.replicate, List.cons_append, List.cons.injEq] at h
      exact ih b xs ys hx hy h.2

theorem repr_head_ne_zero (n : Nat) (hn : 1 ≤ n) :
    (Nat.repr n).data.head? ≠ some '0' := by
  have : (Nat.repr n).data = decDigits n := by
    simp [Nat.repr, List.asString, toDigits_eq_decDigits]
  rw [this]
  exact decDigits_head_ne_zero n hn

theorem zfill4_injective {m n : Nat} (hm : 1 ≤ m) (hn : 1 ≤ n)
    (h : zfill4 m = zfill4 n) : m = n := by
  apply repr_injective
  apply String.ext
  have hd := congrArg String.data h
  simp only [zfill4, String.data_append] at hd
  exact replicate_zero_append_inj _ _ _ _
    (repr_head_ne_zero m hm) (repr_head_ne_zero n hn) hd

theorem genPost_slug_injective {m n now now' : Nat} (hm : 1 ≤ m) (hn : 1 ≤ n)
    (h : (genPost m now).slug = (genPost n now').slug) : m = n := by
  apply zfill4_injective hm hn
  apply String.ext
  have hd := congrArg String.data h
  simp only [genPost, String.data_append] at hd
  exact List.append_cancel_left hd

/-! ### Facts about the insert loop -/

theorem insertOne_eq_none_iff (store : List Post) (doc : Post) :
    insertOne store doc = none ↔ ∃ p ∈ store, p.slug = doc.slug := by
  simp only [insertOne]
  by_cases h : store.any (fun p => p.slug == doc.slug)
  · simp only [h, if_true, true_iff]
    simp only [List.any_eq_true, beq_iff_eq] at h
    exact h
  · simp only [h, if_false]
    simp only [List.any_eq_true, beq_iff_eq] at h
    simpa using h

theorem insertEach_skip (store : List Post) (doc : Post) (docs : List Post)
    (h : insertOne store doc = none) :
    insertEach insertOne store (doc :: docs) = insertEach insertOne store docs := by
  simp [insertEach, h]

theorem insertEach_count_le (attempt : List Post → Post → Option (List Post)) :
    ∀ (docs : List Post) (store : List Post),
      (insertEach attempt store docs).2 ≤ docs.length := by
  intro docs
  induction docs with
  | nil => intro store; simp [insertEach]
  | cons d ds ih =>
    intro store
    simp only [insertEach]
    cases attempt store d with
    | none => exact le_trans (ih store) (by simp)
    | some s2 => simpa using ih s2

theorem insertEach_insertOne_length :
    ∀ (docs : List Post) (store : List Post),
      (insertEach insertOne store docs).1.length =
        store.length + (insertEach insertOne store docs).2 := by
  intro docs
  induction docs with
  | nil => intro store; simp [insertEach]
  | cons d ds ih =>
    intro store
    by_cases h : store.any (fun p => p.slug == d.slug)
    · have hstep : insertOne store d = none := by simp [insertOne, h]
      simp only [insertEach, hstep]
      exact ih store
    · have hstep : insertOne store d = some (store ++ [d]) := by
        simp [insertOne, h]
      simp only [insertEach, hstep]
      have := ih (store ++ [d])
      simp only [List.length_append, List.length_cons, List.length_nil] at this
      omega

/-- If no incoming document collides with the store and the incoming slugs
are pairwise distinct, every document is inserted, in order. -/
theorem insertEach_all_fresh :
    ∀ (docs : List Post) (store : List Post),
      (∀ d ∈ docs, ∀ p ∈ store, p.slug ≠ d.slug) →
      (docs.map Post.slug).Nodup →
      insertEach insertOne store docs = (store ++ docs, docs.length) := by
  intro docs
  induction docs with
  | nil => intro store _ _; simp [insertEach]
  | cons d ds ih =>
    intro store hfresh hnodup
    have hany : store.any (fun p => p.slug == d.slug) = false := by
      rw [List.any_eq_false]
      intro p hp
      simpa using hfresh d (by simp) p hp
    have hstep : insertOne store d = some (store ++ [d]) := by
      simp [insertOne, hany]
    have hfresh2 : ∀ d' ∈ ds, ∀ p ∈ store ++ [d], p.slug ≠ d'.slug := by
      intro d' hd' p hp
      rcases List.mem_append.1 hp with hps | hpd
      · exact hfresh d' (by simp [hd']) p hps
      · have hpd' : p = d := by simpa using hpd
        subst hpd'
        simp only [List.map_cons, List.nodup_cons, List.mem_map] at hnodup
        intro hcontra
        exact hnodup.1 ⟨d', hd', hcontra.symm⟩
    have hnodup2 : (ds.map Post.slug).Nodup := by
      simp only [List.map_cons, List.nodup_cons] at hnodup
      exact hnodup.2
    have hrec := ih (store ++ [d]) hfresh2 hnodup2
    simp only [insertEach, hstep, hrec]
    simp [List.append_assoc]

theorem seedDocs_slugs_nodup (now total : Nat) :
    ((seedDocs now total).map Post.slug).Nodup := by
  rw [seedDocs, List.map_map]
  apply List.Nodup.map_on _ (List.nodup_range total)
  intro m _ n _ h
  have := @genPost_slug_injective (m + 1) (n + 1) now now
    (by omega) (by omega) h
  omega

theorem seedDocs_length (now total : Nat) : (seedDocs now total).length = total := by
  simp [seedDocs]

/-! ### Regex search on metacharacter-free patterns is substring search -/

/-- The PCRE metacharacters.  A pattern avoiding all of them consists of
literal characters only, where the model of `$regex` is exact. -/
def regexMeta : List Char :=
  ['.', '*', '+', '?', '^', '$', '|', '(', ')', '[', ']', '\\', '\x7b', '\x7d']

theorem matchHere_eq_isPrefixOf :
    ∀ (ps cs : List Char), '.' ∉ ps →
      matchHere ps cs = (ps.map Char.toLower).isPrefixOf (cs.map Char.toLower) := by
  intro ps
  induction ps with
  | nil => intro cs _; simp [matchHere, List.isPrefixOf]
  | cons p pr ih =>
    intro cs hdot
    simp only [List.mem_cons, not_or] at hdot
    cases cs with
    | nil => simp [matchHere, List.isPrefixOf]
    | cons c cr =>
      have hp : (p == '.') = false := by simpa using Ne.symm hdot.1
      simp only [matchHere, tokenMatch, hp, Bool.false_or, List.map_cons,
        List.isPrefixOf]
      rw [ih cr hdot.2]

theorem regexFind_eq_containsSub :
    ∀ (cs ps : List Char), '.' ∉ ps →
      regexFind ps cs = containsSub (ps.map Char.toLower) (cs.map Char.toLower) := by
  intro cs
  induction cs with
  | nil =>
    intro ps h
    simp only [regexFind, containsSub, List.map_nil]
    rw [matchHere_eq_isPrefixOf ps [] h]
    rfl
  | cons c cr ih =>
    intro ps h
    simp only [regexFind, containsSub, List.map_cons]
    rw [matchHere_eq_isPrefixOf ps (c :: cr) h, ih ps h]
    rfl

theorem regexMatch_eq_ciSubstring (pat s : String)
    (h : ∀ c ∈ pat.data, c ∉ regexMeta) :
    regexMatch pat s = ciSubstring pat s := by
  have hdot : '.' ∉ pat.data := fun hc => (h '.' hc) (by decide)
  exact regexFind_eq_containsSub s.data pat.data hdot

theorem qMatch_eq_specQMatch (q : String) (p : Post)
    (h : ∀ c ∈ q.data, c ∉ regexMeta) :
    qMatch q p = specQMatch q p := by
  have hr : ∀ s, regexMatch q s = ciSubstring q s :=
    fun s => regexMatch_eq_ciSubstring q s h
  simp only [qMatch, specQMatch, hr]

/-! ### Facts about the generated tags and paragraphs -/

theorem genPost_tags (i now : Nat) :
    (genPost i now).tags =
      ([tag_pool.getD (i % 10) "", tag_pool.getD (i * 3 % 10) "",
        tag_pool.getD (i * 7 % 10) ""]).dedup := rfl

theorem genPost_tags_length (i now : Nat) :
    (genPost i now).tags.length = if i % 5 = 0 then 1 else 3 := by
  rw [genPost_tags]
  have h3 : i * 3 % 10 = i % 10 * 3 % 10 := by
    conv_lhs => rw [Nat.mul_mod]
  have h7 : i * 7 % 10 = i % 10 * 7 % 10 := by
    conv_lhs => rw [Nat.mul_mod]
  have h5 : i % 5 = i % 10 % 5 := (Nat.mod_mod_of_dvd i (by norm_num)).symm
  rw [h3, h7, h5]
  have h10 : i % 10 < 10 := Nat.mod_lt i (by omega)
  set r := i % 10 with hr
  clear_value r
  interval_cases r <;> decide

theorem genPost_paras_distinct (i : Nat) :
    lorem_paras.getD ((i + 0) % 5) "" ≠ lorem_paras.getD ((i + 1) % 5) "" ∧
    lorem_paras.getD ((i + 0) % 5) "" ≠ lorem_paras.getD ((i + 2) % 5) "" ∧
    lorem_paras.getD ((i + 1) % 5) "" ≠ lorem_paras.getD ((i + 2) % 5) "" := by
  have h0 : (i + 0) % 5 = i % 5 := by omega
  have h1 : (i + 1) % 5 = (i % 5 + 1) % 5 := by omega
  have h2 : (i + 2) % 5 = (i % 5 + 2) % 5 := by omega
  rw [h0, h1, h2]
  have h5 : i % 5 < 5 := Nat.mod_lt i (by omega)
  set r := i % 5 with hr
  clear_value r
  interval_cases r <;> exact ⟨by decide, by decide, by decide⟩

/-! ### Facts about single-post retrieval -/

theorem getPost_finds :
    ∀ (store : List Post) (slug : String) (p : Post),
      (store.map Post.slug).Nodup → p ∈ store → p.slug = slug →
      getPost store slug = GetPostResp.ok p := by
  intro store
  induction store with
  | nil => intro slug p _ hp _; simp at hp
  | cons q rest ih =>
    intro slug p hnd hp hs
    simp only [List.map_cons, List.nodup_cons, List.mem_map] at hnd
    by_cases hq : q.slug = slug
    · have hpq : p = q := by
        rcases List.mem_cons.1 hp with h | h
        · exact h
        · exact absurd ⟨p, h, by rw [hs, hq]⟩ hnd.1
      subst hpq
      simp only [getPost]
      rw [List.find?_cons_of_pos _ (by simpa using hq)]
    · have hpr : p ∈ rest := by
        rcases List.mem_cons.1 hp with h | h
        · exact absurd hs (h ▸ hq)
        · exact h
      have hrec := ih slug p hnd.2 hpr hs
      simp only [getPost] at hrec ⊢
      rwa [List.find?_cons_of_neg _ (by simpa using hq)]

theorem getPost_notFound_iff (store : List Post) (slug : String) :
    getPost store slug = GetPostResp.notFound ↔ ∀ p ∈ store, p.slug ≠ slug := by
  constructor
  · intro h p hp hs
    cases hf : store.find? (fun x => x.slug == slug) with
    | none =>
      have := List.find?_eq_none.1 hf p hp
      simp [hs] at this
    | some x => simp [getPost, hf] at h
  · intro h
    have hf : store.find? (fun x => x.slug == slug) = none := by
      rw [List.find?_eq_none]
      intro x hx
      simpa using h x hx
    simp [getPost, hf]

/-! ### Facts about the listing engine -/

theorem sortByCreatedDesc_perm (l : List Post) : (sortByCreatedDesc l).Perm l :=
  List.perm_insertionSort newestFirst l

theorem sortByCreatedDesc_sorted (l : List Post) :
    (sortByCreatedDesc l).Pairwise newestFirst :=
  List.sorted_insertionSort newestFirst l

/-! ## The claims -/

/-- Claim C1: for every index `i ≥ 1`, the seed generator's output for `i`
is a pure function of `i`: the slug is `"sample-blog-post-"` followed by the
zero-padded 4-digit index string, the tags are the deduplicated set of the
tag-pool picks at `i mod 10`, `(i*3) mod 10` and `(i*7) mod 10`, the author
is the author-pool entry at `i mod 10`, and all three are identical across
independent generation runs (they do not depend on the batch timestamp). -/
theorem seed_generation_deterministic (i now now' : Nat) (_hi : 1 ≤ i) :
    (genPost i now).slug = "sample-blog-post-" ++ zfill4 i ∧
    (genPost i now).tags.toFinset =
      {tag_pool.getD (i % 10) "", tag_pool.getD (i * 3 % 10) "",
       tag_pool.getD (i * 7 % 10) ""} ∧
    (genPost i now).author = authors.getD (i % 10) "" ∧
    (genPost i now).slug = (genPost i now').slug ∧
    (genPost i now).tags = (genPost i now').tags ∧
    (genPost i now).author = (genPost i now').author := by
  refine ⟨rfl, ?_, rfl, rfl, rfl, rfl⟩
  rw [genPost_tags]
  ext a
  simp [List.mem_dedup, or_assoc]

theorem seed_generation_deterministic_witness :
    (genPost 3 0).slug = (genPost 3 99).slug :=
  (seed_generation_deterministic 3 0 99 (by decide)).2.2.2.1

/-- Claim C9: for every index `i`, the generated content is the heading
equal to the title, then the three pool paragraphs at indices `(i+0) mod 5`,
`(i+1) mod 5`, `(i+2) mod 5` — three pairwise-distinct paragraphs, so no
paragraph repeats within the same post — followed by the fixed
"Key Takeaways" section with its three fixed bullet lines, all joined by
blank lines. -/
theorem seed_content_structure (i now : Nat) :
    (genPost i now).content =
      joinDD
        ["# " ++ (genPost i now).title,
         lorem_paras.getD ((i + 0) % 5) "",
         lorem_paras.getD ((i + 1) % 5) "",
         lorem_paras.getD ((i + 2) % 5) "",
         "## Key Takeaways",
         "- Insight one about the topic",
         "- Practical tip for readers",
         "- Closing thought to inspire action"] ∧
    lorem_paras.getD ((i + 0) % 5) "" ≠ lorem_paras.getD ((i + 1) % 5) "" ∧
    lorem_paras.getD ((i + 0) % 5) "" ≠ lorem_paras.getD ((i + 2) % 5) "" ∧
    lorem_paras.getD ((i + 1) % 5) "" ≠ lorem_paras.getD ((i + 2) % 5) "" :=
  ⟨rfl, genPost_paras_distinct i⟩

/-- Claim C10: for every index `i ≥ 1`, the generated tags set is non-empty
and its size is exactly 1 or exactly 3 — never 2: the three pool picks all
coincide when `i` is divisible by 5 and are pairwise distinct otherwise. -/
theorem seed_tags_size_one_or_three (i now : Nat) (_hi : 1 ≤ i) :
    (genPost i now).tags ≠ [] ∧
    (genPost i now).tags.length ≠ 2 ∧
    ((genPost i now).tags.length = 1 ↔ i % 5 = 0) ∧
    ((genPost i now).tags.length = 3 ↔ ¬ i % 5 = 0) := by
  have h := genPost_tags_length i now
  refine ⟨?_, ?_, ?_, ?_⟩
  · intro heq
    rw [heq] at h
    by_cases h5 : i % 5 = 0 <;> simp [h5] at h
  · by_cases h5 : i % 5 = 0 <;> simp [h, h5]
  · by_cases h5 : i % 5 = 0 <;> simp [h, h5]
  · by_cases h5 : i % 5 = 0 <;> simp [h, h5]

theorem seed_tags_size_one_or_three_witness :
    (genPost 5 0).tags.length = 1 :=
  ((seed_tags_size_one_or_three 5 0 (by decide)).2.2.1).mpr (by decide)

/-- Claim C7: for every slug, single-post retrieval returns the unique post
whose slug equals the given slug (the full document, `content` included)
when one exists — uniqueness being guaranteed by the slug-nodup invariant —
and yields the non-fatal 404 not-found response exactly when no stored post
has that slug. -/
theorem get_post_spec (store : List Post) (slug : String)
    (hnd : (store.map Post.slug).Nodup) :
    (∀ p ∈ store, p.slug = slug → getPost store slug = GetPostResp.ok p) ∧
    (getPost store slug = GetPostResp.notFound ↔ ∀ p ∈ store, p.slug ≠ slug) :=
  ⟨fun p hp hs => getPost_finds store slug p hnd hp hs,
   getPost_notFound_iff store slug⟩

theorem get_post_spec_witness :
    getPost (seedDocs 0 3) "sample-blog-post-0002" = GetPostResp.ok (genPost 2 0) :=
  (get_post_spec (seedDocs 0 3) "sample-blog-post-0002" (by decide)).1
    (genPost 2 0) (by decide) (by decide)

/-- Claim C8: during seeding each generated record is inserted
individually; an insertion rejected because its slug already exists is
swallowed and contributes zero to the inserted count (the loop simply moves
on), any per-record failure of an arbitrary insert procedure likewise never
propagates as a batch error (the loop is a total function whose counter
counts only successes, bounded by the batch size), and the operation
reports the number of newly inserted records together with the resulting
total count. -/
theorem seeding_insertion_policy :
    (∀ (store : List Post) (doc : Post),
        insertOne store doc = none ↔ ∃ p ∈ store, p.slug = doc.slug) ∧
    (∀ (store : List Post) (doc : Post) (docs : List Post),
        insertOne store doc = none →
        insertEach insertOne store (doc :: docs) =
          insertEach insertOne store docs) ∧
    (∀ (attempt : List Post → Post → Option (List Post)) (store : List Post)
        (docs : List Post), (insertEach attempt store docs).2 ≤ docs.length) ∧
    (∀ (store : List Post) (docs : List Post),
        (insertEach insertOne store docs).1.length =
          store.length + (insertEach insertOne store docs).2) ∧
    (∀ (store : List Post) (now total : Nat), store.length < total →
        seedPosts store now total =
          ((insertEach insertOne store (seedDocs now total)).1,
            SeedResp.seeded (insertEach insertOne store (seedDocs now total)).2
              (insertEach insertOne store (seedDocs now total)).1.length)) := by
  refine ⟨insertOne_eq_none_iff, insertEach_skip,
    fun attempt store docs => insertEach_count_le attempt docs store,
    fun store docs => insertEach_insertOne_length docs store, ?_⟩
  intro store now total h
  simp only [seedPosts]
  rw [if_neg (by omega)]

theorem seeding_insertion_policy_witness :
    insertEach insertOne [genPost 1 0] [genPost 1 0] =
      insertEach insertOne [genPost 1 0] [] :=
  seeding_insertion_policy.2.1 [genPost 1 0] (genPost 1 0) [] (by decide)

/-- A store inhabitant whose slug is foreign to every seeded slug. -/
def alienPost : Post :=
  { title := "t", slug := "x", excerpt := "e", content := "c", author := "a",
    tags := [], cover_image := none, created_at := 0, updated_at := 0 }

/-- Claim C2 counterexample: starting from a store holding one post with
slug `"x"` (fewer than `T = 2` posts), seeding with `T = 2` twice leaves 3
posts, not exactly 2; and the second invocation returns the message branch
`already 3`, not a report of `inserted = 0`. -/
theorem seed_twice_counterexample :
    (seedPosts [alienPost] 0 2).1.length = 3 ∧
    seedPosts (seedPosts [alienPost] 0 2).1 0 2 =
      ((seedPosts [alienPost] 0 2).1, SeedResp.already 3) :=
  ⟨by decide, by decide⟩

/-- Claim C2 (amended): invoking the seed operation twice in sequence with
the same target count `T`, starting from the empty store, leaves exactly
`T` posts in the store (not `2T`); the second invocation takes the no-op
message branch reporting the existing count `T` (the code returns
`\x7b"status", "message"\x7d` with no `inserted` field, rather than
reporting `inserted = 0`). -/
theorem seed_twice_idempotent (T now now' : Nat) :
    (seedPosts [] now T).1.length = T ∧
    seedPosts (seedPosts [] now T).1 now' T =
      ((seedPosts [] now T).1, SeedResp.already T) := by
  have h2 : (seedPosts [] now T).1.length = T := by
    by_cases h : T = 0
    · subst h
      simp [seedPosts]
    · have hlt : ¬ T ≤ ([] : List Post).length := by simp; omega
      simp only [seedPosts, hlt, if_false]
      rw [insertEach_all_fresh (seedDocs now T) [] (by simp)
        (seedDocs_slugs_nodup now T)]
      simp [seedDocs_length]
  refine ⟨h2, ?_⟩
  rw [seedPosts, if_pos (by rw [h2]), h2]

/-- Claim C3 counterexample: with query text `q = "S.mple"` the filter
built by `list_posts` matches the seeded post of index 1 (the unescaped `q`
is passed to `$regex`, and `.` matches the `a` of `"Sample"`), yet
`"S.mple"` is not a case-insensitive substring of its title, excerpt,
content or any tag, refuting the claimed equivalence for arbitrary text. -/
theorem search_substring_counterexample :
    matchFilter (some "S.mple") none (genPost 1 0) = true ∧
    specQMatch "S.mple" (genPost 1 0) = false :=
  ⟨by decide, by decide⟩

/-- Claim C3 (amended): for every listing query whose text `q` is non-empty
and contains no regex metacharacter, a post matches the filter if and only
if `q` occurs as a case-insensitive substring of its title, its excerpt,
its content, or at least one of its tags entries (OR across the four
fields); for other `q` the code's match is the `$regex` semantics of the
verbatim pattern, not plain substring search. -/
theorem search_matches_substring (q : String) (p : Post)
    (hq : q.isEmpty = false) (hmeta : ∀ c ∈ q.data, c ∉ regexMeta) :
    matchFilter (some q) none p = specQMatch q p := by
  simp only [matchFilter, hq, Bool.false_eq_true, if_false, Bool.and_true]
  exact qMatch_eq_specQMatch q p hmeta

theorem search_matches_substring_witness :
    matchFilter (some "lorem") none (genPost 5 0) = specQMatch "lorem" (genPost 5 0) :=
  search_matches_substring "lorem" (genPost 5 0) (by decide) (by decide)

/-- A post whose tags contain `"ai-generated"` but not `"ai"`. -/
def aiGenPost : Post :=
  { title := "t", slug := "s", excerpt := "e", content := "c", author := "a",
    tags := ["ai-generated"], cover_image := none,
    created_at := 0, updated_at := 0 }

/-- Claim C4: for every listing query with a non-empty `tag`, a post
matches only if its tags set contains the given tag under case-sensitive
exact equality (the tag-only filter literally computes membership, so
substring containment such as `"ai-generated"` for tag `"ai"` does not
match); and when both `q` and `tag` are present both conditions apply
conjunctively. -/
theorem tag_filter_exact (q : Option String) (t : String) (p : Post)
    (ht : t.isEmpty = false) :
    (matchFilter none (some t) p = p.tags.contains t) ∧
    (matchFilter q (some t) p = true → t ∈ p.tags) ∧
    (matchFilter q (some t) p =
      (matchFilter q none p && matchFilter none (some t) p)) := by
  refine ⟨?_, ?_, ?_⟩
  · simp [matchFilter, ht]
  · intro h
    simp only [matchFilter, ht, Bool.false_eq_true, if_false,
      Bool.and_eq_true] at h
    simpa using h.2
  · simp only [matchFilter, Bool.and_true, Bool.true_and]

theorem tag_filter_exact_witness :
    matchFilter none (some "ai") aiGenPost = false ∧
    matchFilter none (some "ai") (genPost 3 0) = true := by
  constructor
  · rw [(tag_filter_exact none "ai" aiGenPost (by decide)).1]
    decide
  · rw [(tag_filter_exact none "ai" (genPost 3 0) (by decide)).1]
    decide

/-- Claim C5: for every listing query, the reported `pages` value equals
the ceiling of `total / limit` — both as the Mathlib ceiling division and
through its Galois characterisation — where `total` is the number of
matches of the filter, and equals 1 when `limit = 0` (defensive fallback,
unreachable for validated inputs). -/
theorem listing_pages_is_ceiling (store : List Post) (page limit : Nat)
    (q tag : Option String) :
    (listPosts store page limit q tag).total =
      (store.filter (matchFilter q tag)).length ∧
    (limit = 0 → (listPosts store page limit q tag).pages = 1) ∧
    (0 < limit →
      (listPosts store page limit q tag).pages =
        (listPosts store page limit q tag).total ⌈/⌉ limit ∧
      ∀ k, ((listPosts store page limit q tag).pages ≤ k ↔
        (listPosts store page limit q tag).total ≤ k * limit)) := by
  refine ⟨rfl, ?_, ?_⟩
  · intro h
    simp [listPosts, h]
  · intro h
    have hne : ¬ limit = 0 := by omega
    constructor
    · show (if limit = 0 then 1 else _) = _
      rw [if_neg hne, Nat.ceilDiv_eq_add_pred_div]
      rfl
    · intro k
      show (if limit = 0 then 1 else _) ≤ k ↔ _
      rw [if_neg hne, ← Nat.ceilDiv_eq_add_pred_div,
        ceilDiv_le_iff_le_smul h, smul_eq_mul, Nat.mul_comm limit k]
      exact Iff.rfl

theorem listing_pages_is_ceiling_witness :
    (listPosts (seedDocs 0 5) 1 2 none none).pages =
      (listPosts (seedDocs 0 5) 1 2 none none).total ⌈/⌉ 2 :=
  ((listing_pages_is_ceiling (seedDocs 0 5) 1 2 none none).2.2 (by decide)).1

/-- Claim C6: for every validated listing query (`page ≥ 1`,
`limit ∈ [1, 50]`), the returned items are a window of at most `limit`
posts matching the filter, sorted by `created_at` descending, obtained
after skipping the first `(page-1)*limit` matches, and every returned item
is the content-free summary of a matching stored post. -/
theorem listing_window (store : List Post) (page limit : Nat)
    (q tag : Option String) (_hp : 1 ≤ page) (_hl1 : 1 ≤ limit)
    (_hl2 : limit ≤ 50) :
    (listPosts store page limit q tag).items.length ≤ limit ∧
    (listPosts store page limit q tag).items =
      (((sortByCreatedDesc (store.filter (matchFilter q tag))).drop
          ((page - 1) * limit)).take limit).map summarize ∧
    (listPosts store page limit q tag).items.Pairwise
      (fun a b => b.created_at ≤ a.created_at) ∧
    ∀ it ∈ (listPosts store page limit q tag).items,
      ∃ p, p ∈ store ∧ matchFilter q tag p = true ∧ it = summarize p := by
  refine ⟨?_, rfl, ?_, ?_⟩
  · show ((((sortByCreatedDesc (store.filter (matchFilter q tag))).drop
        ((page - 1) * limit)).take limit).map summarize).length ≤ limit
    rw [List.length_map]
    exact List.length_take_le limit _
  · have hs : (sortByCreatedDesc (store.filter (matchFilter q tag))).Pairwise
        newestFirst := sortByCreatedDesc_sorted _
    have hw : List.Sublist
        (((sortByCreatedDesc (store.filter (matchFilter q tag))).drop
          ((page - 1) * limit)).take limit)
        (sortByCreatedDesc (store.filter (matchFilter q tag))) :=
      (List.take_sublist _ _).trans (List.drop_sublist _ _)
    show ((((sortByCreatedDesc (store.filter (matchFilter q tag))).drop
        ((page - 1) * limit)).take limit).map summarize).Pairwise _
    rw [List.pairwise_map]
    exact (hs.sublist hw).imp (fun h => h)
  · intro it hit
    have hit' : it ∈ (((sortByCreatedDesc
        (store.filter (matchFilter q tag))).drop
          ((page - 1) * limit)).take limit).map summarize := hit
    rcases List.mem_map.1 hit' with ⟨p, hpw, hpe⟩
    have hp1 : p ∈ sortByCreatedDesc (store.filter (matchFilter q tag)) :=
      ((List.take_sublist _ _).trans (List.drop_sublist _ _)).subset hpw
    have hp2 : p ∈ store.filter (matchFilter q tag) :=
      (sortByCreatedDesc_perm _).subset hp1
    have hp3 := List.mem_filter.1 hp2
    exact ⟨p, hp3.1, hp3.2, hpe.symm⟩

theorem listing_window_witness :
    (listPosts (seedDocs 0 3) 1 2 none none).items.length ≤ 2 :=
  (listing_window (seedDocs 0 3) 1 2 none none (by decide) (by decide)
    (by decide)).1

example : zfill4 12345 = "12345" := by decide
example : zfill4 7 = "0007" := by decide
example : (genPost 1 0).tags = ["design", "ai", "growth"] := by decide
example : (genPost 5 0).tags = ["life"] := by decide
example : (seedPosts [] 0 2).1.length = 2 := by decide
example : matchFilter (some "S.mple") none (genPost 1 0) = true := by decide
example : specQMatch "S.mple" (genPost 1 0) = false := by decide
example : matchFilter (some "lorem") none (genPost 5 0) = true := by decide
example : specQMatch "lorem" (genPost 5 0) = true := by decide
example : (listPosts (seedDocs 0 3) 1 2 none none).pages = 2 := by decide
example : (listPosts (seedDocs 0 3) 1 2 none none).items.length = 2 := by decide
example : getPost (seedDocs 0 3) "sample-blog-post-0002" =
    GetPostResp.ok (genPost 2 0) := by decide
example : getPost (seedDocs 0 3) "nope" = GetPostResp.notFound := by decide
